import Mathlib

/-!
Shallow embedding of the gmail-dashboard email view state machine:
the Zustand email store (`useEmailStore`), the list component's
filter/fetch/classify/keyboard logic (`EmailList`), and the UI store's
detail-panel flag.  Definitions are translated directly from the
TypeScript source; theorems check the specification's claims about them.
-/

namespace GmailDashboard

/-- Priority values of a classification (`"high" | "medium" | "low"`). -/
inductive Priority
  | high
  | medium
  | low
  deriving DecidableEq, Repr

/-- Coarse date range of the filter state (`"all" | "today" | "week" | "month"`). -/
inductive DateRange
  | all
  | today
  | week
  | month
  deriving DecidableEq, Repr

/-- The `Email` record of the store (source interface `Email`); the TypeScript
field `from` is a Lean keyword and is embedded as `fromAddr`. -/
structure Email where
  id : String
  threadId : String
  fromAddr : String
  subject : String
  date : String
  snippet : String
  isUnread : Option Bool
  hasAttachment : Option Bool
  labelIds : Option (List String)
  deriving DecidableEq, Repr

/-- The `EmailClassification` record (source interface `EmailClassification`);
the numeric `confidence` is embedded as a rational. -/
structure EmailClassification where
  id : String
  emailId : String
  userId : String
  category : String
  priority : Priority
  isRedundant : Bool
  redundantOf : Option String
  aiReason : Option String
  confidence : Option ℚ
  isManual : Bool
  deriving DecidableEq, Repr

/-- The `UserTag` record (source interface `UserTag`). -/
structure UserTag where
  id : String
  userId : String
  name : String
  color : String
  deriving DecidableEq, Repr

/-- The `EmailFilters` record (source interface `EmailFilters`). -/
structure EmailFilters where
  search : String
  unreadOnly : Bool
  hasAttachment : Bool
  dateRange : DateRange
  categories : List String
  priorities : List Priority
  tags : List String
  excludeRedundant : Bool
  deriving DecidableEq, Repr

/-- The JS `Map<string, EmailClassification>` of the store, embedded as a
lookup function (`Map.get` semantics: `none` when the key is absent). -/
def ClassMap : Type := String → Option EmailClassification

/-- The JS `Map<string, string[]>` mapping email ids to tag ids. -/
def TagMap : Type := String → Option (List String)

/-- JS `Map.set`: point update of a lookup map. -/
def mapInsert (map : ClassMap) (key : String) (value : EmailClassification) : ClassMap :=
  fun k => if k = key then some value else map k

/-- The empty JS `Map` (`new Map()`): every lookup misses. -/
def emptyClassMap : ClassMap := fun _ => none

/-- The empty email-tag map. -/
def emptyTagMap : TagMap := fun _ => none

/-- State of `useEmailStore` (source interface `EmailState`), restricted to
its data fields; the action closures are embedded as the functions below. -/
structure EmailState where
  emails : List Email
  selectedEmailId : Option String
  selectedEmailIds : Finset String
  classifications : ClassMap
  userTags : List UserTag
  emailTags : TagMap
  isClassifying : Bool
  pageToken : Option String
  hasMore : Bool
  isLoading : Bool
  isLoadingMore : Bool
  error : Option String
  filters : EmailFilters

/-- JS truthiness of a `string | null | undefined` pagination token
(`!!pageToken`): `null`, `undefined` and `""` are falsy. -/
def tokenTruthy : Option String → Bool
  | none => false
  | some s => !(s = "")

/-- Store action `setEmails`: replaces the base list and clears both the
active id and the multi-selection (source lines 127-132 of the store). -/
def setEmails (s : EmailState) (emails : List Email) : EmailState :=
  { s with emails := emails, selectedEmailId := none, selectedEmailIds := ∅ }

/-- Store action `appendEmails`: concatenates a page onto the base list and
updates the cursor and has-more flag. -/
def appendEmails (s : EmailState) (newEmails : List Email) (pageToken : Option String) :
    EmailState :=
  { s with emails := s.emails ++ newEmails, pageToken := pageToken,
           hasMore := tokenTruthy pageToken }

/-- Store action `selectEmail`: sets the active id (or clears it with `none`). -/
def selectEmail (s : EmailState) (id : Option String) : EmailState :=
  { s with selectedEmailId := id }

/-- Store action `toggleEmailSelection`: toggles membership of `id` in the
multi-selection set. -/
def toggleEmailSelection (s : EmailState) (id : String) : EmailState :=
  { s with selectedEmailIds :=
      if id ∈ s.selectedEmailIds then s.selectedEmailIds.erase id
      else insert id s.selectedEmailIds }

/-- Store action `selectAllEmails`: selects every loaded email. -/
def selectAllEmails (s : EmailState) : EmailState :=
  { s with selectedEmailIds := (s.emails.map Email.id).toFinset }

/-- Store action `clearSelection`. -/
def clearSelection (s : EmailState) : EmailState :=
  { s with selectedEmailIds := ∅ }

/-- Store action `setPageToken`: sets the cursor and recomputes `hasMore`
from its truthiness. -/
def setPageToken (s : EmailState) (pageToken : Option String) : EmailState :=
  { s with pageToken := pageToken, hasMore := tokenTruthy pageToken }

/-- Store action `setError`. -/
def setError (s : EmailState) (error : Option String) : EmailState :=
  { s with error := error }

/-- Store action `setClassifying`. -/
def setClassifying (s : EmailState) (isClassifying : Bool) : EmailState :=
  { s with isClassifying := isClassifying }

/-- Store action `updateFilter`, viewed at the whole-record level: every call
builds a fresh `filters` object (`{ ...state.filters, [key]: value }`), so the
embedded action takes the resulting record. -/
def updateFilters (s : EmailState) (filters : EmailFilters) : EmailState :=
  { s with filters := filters }

/-- The merge loop of store action `setClassifications`: iterate the batch's
entries in order and `Map.set` each one into the accumulated map. -/
def mergeClassifications : ClassMap → List (String × EmailClassification) → ClassMap
  | map, [] => map
  | map, kv :: rest => mergeClassifications (mapInsert map kv.1 kv.2) rest

/-- Store action `setClassifications`: merges the incoming batch into the
existing classification map (source lines 197-205 of the store). -/
def setClassifications (s : EmailState) (batch : List (String × EmailClassification)) :
    EmailState :=
  { s with classifications := mergeClassifications s.classifications batch }

/-- The per-email predicate inside `getFilteredEmails` (source lines 221-255):
sequential early-return checks for category, priority, redundancy and tags. -/
def emailVisible (filters : EmailFilters) (classifications : ClassMap)
    (emailTags : TagMap) (email : Email) : Bool :=
  (if filters.categories.length > 0 then
    match classifications email.id with
    | none => false
    | some c => filters.categories.contains c.category
   else true)
  &&
  (if filters.priorities.length > 0 then
    match classifications email.id with
    | none => false
    | some c => filters.priorities.contains c.priority
   else true)
  &&
  (if filters.excludeRedundant then
    match classifications email.id with
    | none => true
    | some c => !c.isRedundant
   else true)
  &&
  (if filters.tags.length > 0 then
    let tags := (emailTags email.id).getD []
    filters.tags.any (fun tagId => tags.contains tagId)
   else true)

/-- Store getter `getFilteredEmails`: filters the loaded list by the
client-side classification predicate. -/
def getFilteredEmails (s : EmailState) : List Email :=
  s.emails.filter (emailVisible s.filters s.classifications s.emailTags)

/-! ## EmailList component (list view) -/

/-- The `buildQuery` helper of `EmailList` (source lines 51-81): joins one token per
active remote-filterable constraint.  The wall-clock dependent date token
(`after:` plus a date computed from `Date.now`) is abstracted as the
parameter `dateTok`; the classification-derived fields contribute nothing. -/
def buildQuery (dateTok : DateRange → String) (f : EmailFilters) : String :=
  let parts : List String :=
    (if !(f.search = "") then [f.search] else [])
    ++ (if f.unreadOnly then ["is:unread"] else [])
    ++ (if f.hasAttachment then ["has:attachment"] else [])
    ++ (match f.dateRange with
        | DateRange.all => []
        | d => ["after:" ++ dateTok d])
  String.intercalate " " parts

/-- A resolved `/api/gmail/messages` response as consumed by `fetchEmails`. -/
structure FetchResponse where
  messages : List Email
  nextPageToken : Option String
  deriving DecidableEq, Repr

/-- The success path of `fetchEmails` without `append` (source lines
106-111): `setEmails(data.messages)` followed by
`setPageToken(data.nextPageToken)`. -/
def fetchEmailsStep (s : EmailState) (resp : FetchResponse) : EmailState :=
  setPageToken (setEmails s resp.messages) resp.nextPageToken

/-- The composite replace operation the spec calls `replace(messages,
cursor)`: what the first-page fetch performs on the store. -/
def replaceOp (s : EmailState) (messages : List Email) (cursor : Option String) :
    EmailState :=
  setPageToken (setEmails s messages) cursor

/-- The filter-change step of `EmailList`: `updateFilter` always builds a new
`filters` object, and the effect with dependency array `[filters]` (source
lines 132-135) then re-runs `fetchEmails()` — for every filter change,
classification-derived or not. -/
def filterChangeStep (s : EmailState) (newFilters : EmailFilters)
    (resp : FetchResponse) : EmailState :=
  fetchEmailsStep (updateFilters s newFilters) resp

/-- The gate of `displayEmails` (source lines 199-206): whether any
client-side classification filter is active (the tag filter is not tested). -/
def hasClassificationFilters (f : EmailFilters) : Bool :=
  f.categories.length > 0 || f.priorities.length > 0 || f.excludeRedundant

/-- The `displayEmails` memo of `EmailList`: the visible list used for render and
keyboard navigation. -/
def displayEmails (s : EmailState) : List Email :=
  if hasClassificationFilters s.filters then getFilteredEmails s else s.emails

/-! ## Keyboard navigation (handleKeyDown) -/

/-- JS `Array.prototype.findIndex`: index of the first match, `-1` if none. -/
def jsFindIndex (p : Email → Bool) : List Email → Int
  | [] => -1
  | e :: rest =>
    if p e then 0
    else
      let r := jsFindIndex p rest
      if r < 0 then -1 else r + 1

/-- The `currentIndex` computation of the key handler (source line 226):
`displayEmails.findIndex((email) => email.id === currentSelectedId)`;
a `null` active id matches nothing. -/
def currentIndex (visible : List Email) (active : Option String) : Int :=
  match active with
  | none => -1
  | some id => jsFindIndex (fun e => e.id == id) visible

/-- The `j`/`ArrowDown` case of the key handler (source lines 229-243):
the resulting active id. -/
def navNext (visible : List Email) (active : Option String) : Option String :=
  let i := currentIndex visible active
  if i < (visible.length : Int) - 1 then
    match visible.get? (i + 1).toNat with
    | some e => some e.id
    | none => active
  else if i = -1 ∧ 0 < visible.length then
    match visible.get? 0 with
    | some e => some e.id
    | none => active
  else active

/-- The `k`/`ArrowUp` case of the key handler (source lines 245-253):
the resulting active id. -/
def navPrev (visible : List Email) (active : Option String) : Option String :=
  let i := currentIndex visible active
  if 0 < i then
    match visible.get? (i - 1).toNat with
    | some e => some e.id
    | none => active
  else active

/-- The `Escape` case of the key handler (source lines 263-272), combined
with the UI store's detail flag: returns the new detail flag and store
state.  Exactly one of the three branches runs per event. -/
def closeStep (detailPanelOpen : Bool) (s : EmailState) : Bool × EmailState :=
  if detailPanelOpen then (false, s)
  else if 0 < s.selectedEmailIds.card then (detailPanelOpen, clearSelection s)
  else (detailPanelOpen, selectEmail s none)

/-! ## Classification pipeline (classifyEmails effect) -/

/-- The unclassified computation (source lines 147-149): loaded emails whose
id is neither in the store's classification map nor in the in-flight set
`classifiedIdsRef`. -/
def computeUnclassified (emails : List Email) (classifications : ClassMap)
    (inflight : Finset String) : List Email :=
  emails.filter (fun e =>
    (classifications e.id).isNone && !(decide (e.id ∈ inflight)))

/-- Marking the batch in-flight before the network call (source line 156):
`batch.forEach((e) => classifiedIdsRef.current.add(e.id))`. -/
def markInflight (inflight : Finset String) (batch : List Email) : Finset String :=
  batch.foldl (fun acc e => insert e.id acc) inflight

/-- The error rollback (source lines 182 and 187):
`batch.forEach((e) => classifiedIdsRef.current.delete(e.id))`. -/
def rollbackInflight (inflight : Finset String) (batch : List Email) : Finset String :=
  batch.foldl (fun acc e => acc.erase e.id) inflight

/-- What one debounce firing of `classifyEmails` decides before any network
IO: either nothing (guards or empty unclassified set), or a submission of a
batch together with the updated in-flight set. -/
inductive ClassifyAction
  | idle
  | submit (batch : List Email) (inflight : Finset String)
  deriving DecidableEq

/-- The synchronous head of `classifyEmails` (source lines 142-157): guards,
unclassified computation, batching to 50, and in-flight marking. -/
def classifyStep (emails : List Email) (classifications : ClassMap)
    (inflight : Finset String) (isClassifying isLoading : Bool) : ClassifyAction :=
  if emails.isEmpty || isClassifying || isLoading then ClassifyAction.idle
  else
    let unclassified := computeUnclassified emails classifications inflight
    if unclassified.isEmpty then ClassifyAction.idle
    else
      let batch := unclassified.take 50
      ClassifyAction.submit batch (markInflight inflight batch)

/-- The failure continuation of `classifyEmails` (source lines 180-190): the
store is only touched by `setClassifying(false)`, and the batch's ids are
rolled back out of the in-flight set; no retry request is issued and no
error string is set. -/
def classifyFailureStep (s : EmailState) (inflight : Finset String)
    (batch : List Email) : EmailState × Finset String :=
  (setClassifying s false, rollbackInflight inflight batch)

/-! ## Concrete fixtures -/

/-- A minimal concrete email for concrete evaluations. -/
def mkEmail (id : String) : Email :=
  { id := id, threadId := "t" ++ id, fromAddr := "a@example.com", subject := "s",
    date := "2024-01-01", snippet := "", isUnread := none, hasAttachment := none,
    labelIds := none }

/-- The `defaultFilters` constant of the store (source lines 99-108). -/
def defaultFilters : EmailFilters :=
  { search := "", unreadOnly := false, hasAttachment := false,
    dateRange := DateRange.all, categories := [], priorities := [], tags := [],
    excludeRedundant := false }

/-- The store's initial state (source lines 111-124). -/
def initialState : EmailState :=
  { emails := [], selectedEmailId := none, selectedEmailIds := ∅,
    classifications := emptyClassMap, userTags := [], emailTags := emptyTagMap,
    isClassifying := false, pageToken := none, hasMore := false,
    isLoading := true, isLoadingMore := false, error := none,
    filters := defaultFilters }

/-- A concrete automatic classification result for concrete evaluations. -/
def mkClassification (emailId category : String) (manual : Bool) :
    EmailClassification :=
  { id := "c" ++ emailId, emailId := emailId, userId := "u", category := category,
    priority := Priority.medium, isRedundant := false, redundantOf := none,
    aiReason := none, confidence := none, isManual := manual }

/-- Concrete state with one loaded unclassified email and an active
exclude-redundant filter. -/
def sC3 : EmailState :=
  { initialState with
    emails := [mkEmail "a"],
    filters := { defaultFilters with excludeRedundant := true } }

/-- Concrete state with one loaded unclassified email and an active
category filter. -/
def sC4 : EmailState :=
  { initialState with
    emails := [mkEmail "u"],
    filters := { defaultFilters with categories := ["finance"] } }

/-- Concrete state whose classification map holds a manual correction for
message `m1` (category `work`). -/
def sC2 : EmailState :=
  { initialState with
    classifications := mapInsert emptyClassMap "m1" (mkClassification "m1" "work" true) }

/-- An incoming automatic batch re-classifying `m1` as `finance`. -/
def batchC2 : List (String × EmailClassification) :=
  [("m1", mkClassification "m1" "finance" false)]

/-- Two filter states differ only in the classification-derived fields
(categories, priorities, tags, excludeRedundant) when they agree on every
remote-affecting field. -/
def differOnlyInClassificationFilters (f1 f2 : EmailFilters) : Prop :=
  f1.search = f2.search ∧ f1.unreadOnly = f2.unreadOnly
  ∧ f1.hasAttachment = f2.hasAttachment ∧ f1.dateRange = f2.dateRange

/-- A concrete clock abstraction for the remote query's date token. -/
def dateTokC1 : DateRange → String := fun _ => "2024-01-01"

/-- Concrete pre-state for the filter-change step: one loaded email and a
live pagination cursor. -/
def sC1 : EmailState :=
  { initialState with
    emails := [mkEmail "m1"],
    pageToken := some "x",
    hasMore := true }

/-- A filter state differing from `sC1.filters` only in `categories`. -/
def f2C1 : EmailFilters := { defaultFilters with categories := ["finance"] }

/-- A concrete resolved first-page response. -/
def respC1 : FetchResponse := { messages := [], nextPageToken := none }

/-- Concrete state with a non-empty multi-selection and an active id, with
the detail panel taken as open. -/
def sC7 : EmailState :=
  { initialState with
    emails := [mkEmail "A", mkEmail "B"],
    selectedEmailId := some "B",
    selectedEmailIds := {"A"} }

/-- Concrete navigation state with three loaded messages and no active
classification filter, so the visible list is the whole base list. -/
def sNav : EmailState :=
  { initialState with
    emails := [mkEmail "A", mkEmail "B", mkEmail "C"] }

/-- Three concrete loaded emails with ids 1, 2, 3. -/
def emailsC8 : List Email := [mkEmail "1", mkEmail "2", mkEmail "3"]

/-- Concrete in-flight set holding ids 1 and 2. -/
def inflightC8 : Finset String := {"1", "2"}

/-! ## Theorems -/

/-- C10: `getFilteredEmails` returns an order-preserving sublist of the
loaded email list — every returned message occurs in the base list, relative
order is the provider order, and nothing is duplicated or synthesized. -/
theorem C10_filtered_is_ordered_sublist (s : EmailState) :
    List.Sublist (getFilteredEmails s) s.emails :=
  List.filter_sublist s.emails

/-- C5: the replace operation (`setEmails` followed by `setPageToken`, the
first-page fetch path) sets the base list to exactly the given messages,
clears the selection, and resets the pagination cursor and has-more flag. -/
theorem C5_replace_sets_list_clears_selection_resets_cursor (s : EmailState)
    (messages : List Email) (cursor : Option String) :
    (replaceOp s messages cursor).emails = messages
    ∧ (replaceOp s messages cursor).selectedEmailId = none
    ∧ (replaceOp s messages cursor).selectedEmailIds = ∅
    ∧ (replaceOp s messages cursor).pageToken = cursor
    ∧ (replaceOp s messages cursor).hasMore = tokenTruthy cursor :=
  ⟨rfl, rfl, rfl, rfl, rfl⟩

/-- C4: with a non-empty category filter, a message without a classification
entry is not in the filtered list (fail-closed invariant of the category
branch). -/
theorem C4_category_filter_fails_closed (s : EmailState) (m : Email)
    (h1 : s.filters.categories ≠ []) (h2 : s.classifications m.id = none) :
    m ∉ getFilteredEmails s := by
  intro hmem
  rcases List.mem_filter.mp hmem with ⟨hm, hvis⟩
  have hlen : 0 < s.filters.categories.length := List.length_pos.mpr h1
  rw [emailVisible, if_pos hlen, h2] at hvis
  simp at hvis

/-- C4 witness: a concrete unclassified email is filtered out under a
concrete non-empty category filter. -/
theorem C4_category_filter_fails_closed_witness :
    sC4.filters.categories ≠ [] ∧ sC4.classifications (mkEmail "u").id = none
    ∧ (mkEmail "u") ∉ getFilteredEmails sC4 :=
  ⟨by decide, rfl, C4_category_filter_fails_closed sC4 (mkEmail "u") (by decide) rfl⟩

/-- C3 counterexample: with the exclude-redundant filter active and no
classification for message `a`, the message is NOT excluded — the
`excludeRedundant` branch fails open on a missing classification
(`classification?.isRedundant` is falsy), contradicting the claim. -/
theorem C3_counterexample :
    sC3.filters.excludeRedundant = true
    ∧ sC3.classifications (mkEmail "a").id = none
    ∧ (mkEmail "a") ∈ getFilteredEmails sC3 := by
  refine ⟨rfl, rfl, ?_⟩
  decide

/-- C3 amended: a loaded message without a classification entry stays
visible when no category, priority or tag filter is active, whatever the
exclude-redundant flag — the redundancy filter fails open on missing
classifications; only a classification with `isRedundant = true` excludes. -/
theorem C3_missing_classification_not_excluded_by_redundancy (s : EmailState)
    (m : Email) (h1 : m ∈ s.emails) (h2 : s.classifications m.id = none)
    (h3 : s.filters.categories = []) (h4 : s.filters.priorities = [])
    (h5 : s.filters.tags = []) :
    m ∈ getFilteredEmails s := by
  rw [getFilteredEmails]
  refine List.mem_filter.mpr ⟨h1, ?_⟩
  rw [emailVisible, h2, h3, h4, h5]
  cases hx : s.filters.excludeRedundant <;> simp [hx]

/-- C3 amended witness: the concrete unclassified email of `sC3` is visible
under the active exclude-redundant filter. -/
theorem C3_missing_classification_witness :
    (mkEmail "a") ∈ sC3.emails ∧ sC3.classifications (mkEmail "a").id = none
    ∧ sC3.filters.excludeRedundant = true
    ∧ (mkEmail "a") ∈ getFilteredEmails sC3 :=
  ⟨by decide, rfl, rfl,
   C3_missing_classification_not_excluded_by_redundancy sC3 (mkEmail "a")
     (by decide) rfl rfl rfl rfl⟩

/-- Lookup after the `setClassifications` merge loop: the last batch entry
for a key wins, and keys not in the batch keep their previous value — the
merge is an unconditional insert-or-overwrite. -/
theorem mergeClassifications_lookup (batch : List (String × EmailClassification)) :
    ∀ (map : ClassMap) (m : String),
      mergeClassifications map batch m =
        match batch.reverse.find? (fun kv => kv.1 == m) with
        | some kv => some kv.2
        | none => map m := by
  induction batch with
  | nil => intro map m; rfl
  | cons kv rest ih =>
    intro map m
    rw [mergeClassifications, ih]
    rw [List.reverse_cons, List.find?_append]
    cases hfind : rest.reverse.find? (fun kv' => kv'.1 == m) with
    | some kv' => rfl
    | none =>
      show mapInsert map kv.1 kv.2 m = _
      rw [mapInsert]
      by_cases hk : m = kv.1
      · subst hk
        simp [List.find?]
      · have hbeq : (kv.1 == m) = false := by
          simp only [beq_eq_false_iff_ne, ne_eq]
          exact fun h => hk h.symm
        simp [List.find?, hbeq, hk]

/-- C2 counterexample: `setClassifications` overwrites an entry whose
`isManual` flag is `true` — the manual correction for `m1` (category
`work`) is replaced by the incoming automatic result (`finance`). -/
theorem C2_counterexample :
    (sC2.classifications "m1").map EmailClassification.isManual = some true
    ∧ (sC2.classifications "m1").map EmailClassification.category = some "work"
    ∧ ((setClassifications sC2 batchC2).classifications "m1").map
        EmailClassification.category = some "finance" := by
  refine ⟨rfl, rfl, ?_⟩
  rfl

/-- C2 amended: `setClassifications` is an unconditional insert-or-overwrite
— the post-merge entry for any id is the batch's last entry for that id when
one exists (manual or not), and the prior entry exactly when the id is not a
key of the batch; manual-stickiness is not enforced by this store action. -/
theorem C2_merge_overwrites_unconditionally (s : EmailState)
    (batch : List (String × EmailClassification)) (m : String) :
    (setClassifications s batch).classifications m =
      match batch.reverse.find? (fun kv => kv.1 == m) with
      | some kv => some kv.2
      | none => s.classifications m :=
  mergeClassifications_lookup batch s.classifications m

/-- C1 counterexample: a switch that changes only the `categories` field
does trigger the fetch effect (the effect's dependency is the whole
`filters` object), so the base list and the pagination cursor are replaced
from the response — not left unchanged as the claim states. -/
theorem C1_counterexample :
    differOnlyInClassificationFilters sC1.filters f2C1
    ∧ (filterChangeStep sC1 f2C1 respC1).pageToken ≠ sC1.pageToken
    ∧ (filterChangeStep sC1 f2C1 respC1).emails ≠ sC1.emails := by
  refine ⟨⟨rfl, rfl, rfl, rfl⟩, ?_, ?_⟩ <;> decide

/-- C1 amended: switching between filter states that differ only in
classification-derived fields re-issues the SAME remote query string (those
fields contribute nothing to `buildQuery`), but the `[filters]` effect still
re-runs `fetchEmails`, so the base list and cursor are reset from the
response, the selection is cleared, and the visible set is re-derived under
the new filters. -/
theorem C1_same_query_but_refetch_on_classification_filter_change
    (dateTok : DateRange → String) (s : EmailState) (f2 : EmailFilters)
    (resp : FetchResponse)
    (h : differOnlyInClassificationFilters s.filters f2) :
    buildQuery dateTok f2 = buildQuery dateTok s.filters
    ∧ (filterChangeStep s f2 resp).emails = resp.messages
    ∧ (filterChangeStep s f2 resp).pageToken = resp.nextPageToken
    ∧ (filterChangeStep s f2 resp).selectedEmailId = none
    ∧ (filterChangeStep s f2 resp).filters = f2 := by
  obtain ⟨h1, h2, h3, h4⟩ := h
  refine ⟨?_, rfl, rfl, rfl, rfl⟩
  simp only [buildQuery, h1, h2, h3, h4]

/-- C1 amended witness: the concrete category-only switch issues the same
query string yet replaces the list and cursor from the response. -/
theorem C1_same_query_but_refetch_witness :
    differOnlyInClassificationFilters sC1.filters f2C1
    ∧ buildQuery dateTokC1 f2C1 = buildQuery dateTokC1 sC1.filters
    ∧ (filterChangeStep sC1 f2C1 respC1).emails = respC1.messages
    ∧ (filterChangeStep sC1 f2C1 respC1).pageToken = respC1.nextPageToken :=
  ⟨⟨rfl, rfl, rfl, rfl⟩,
   (C1_same_query_but_refetch_on_classification_filter_change dateTokC1 sC1 f2C1
      respC1 ⟨rfl, rfl, rfl, rfl⟩).1,
   (C1_same_query_but_refetch_on_classification_filter_change dateTokC1 sC1 f2C1
      respC1 ⟨rfl, rfl, rfl, rfl⟩).2.1,
   (C1_same_query_but_refetch_on_classification_filter_change dateTokC1 sC1 f2C1
      respC1 ⟨rfl, rfl, rfl, rfl⟩).2.2.1⟩

/-- C7: the close (Escape) handler follows strict priority with exactly one
action per event: with the detail panel open it only closes the panel; with
the panel closed and a non-empty selection it only clears the selection
(active id untouched); otherwise it clears the active id — so three
successive events close the panel, clear the selection, clear the active id. -/
theorem C7_close_priority (s : EmailState) (h : 0 < s.selectedEmailIds.card) :
    closeStep true s = (false, s)
    ∧ closeStep false s = (false, clearSelection s)
    ∧ (clearSelection s).selectedEmailIds = ∅
    ∧ (clearSelection s).selectedEmailId = s.selectedEmailId
    ∧ closeStep false (clearSelection s) = (false, selectEmail (clearSelection s) none)
    ∧ (selectEmail (clearSelection s) none).selectedEmailId = none := by
  refine ⟨rfl, ?_, rfl, rfl, ?_, rfl⟩
  · simp [closeStep, h]
  · simp [closeStep, clearSelection]

/-- C7 witness: the three-event close sequence on a concrete state with the
detail panel open and a one-element selection. -/
theorem C7_close_priority_witness :
    0 < sC7.selectedEmailIds.card
    ∧ closeStep true sC7 = (false, sC7)
    ∧ closeStep false sC7 = (false, clearSelection sC7)
    ∧ closeStep false (clearSelection sC7)
        = (false, selectEmail (clearSelection sC7) none)
    ∧ (selectEmail (clearSelection sC7) none).selectedEmailId = none :=
  ⟨by decide,
   (C7_close_priority sC7 (by decide)).1,
   (C7_close_priority sC7 (by decide)).2.1,
   (C7_close_priority sC7 (by decide)).2.2.2.2.1,
   (C7_close_priority sC7 (by decide)).2.2.2.2.2⟩

/-- Characterization of a submitting debounce firing: the batch is the
50-element prefix of the unclassified computation and the new in-flight set
marks the batch. -/
theorem classifyStep_submit_spec (emails : List Email) (classifications : ClassMap)
    (inflight : Finset String) (isClassifying isLoading : Bool)
    (batch : List Email) (inflight' : Finset String)
    (h : classifyStep emails classifications inflight isClassifying isLoading
          = ClassifyAction.submit batch inflight') :
    batch = (computeUnclassified emails classifications inflight).take 50
    ∧ inflight' = markInflight inflight batch := by
  rw [classifyStep] at h
  split at h
  · exact ClassifyAction.noConfusion h
  · dsimp only at h
    split at h
    · exact ClassifyAction.noConfusion h
    · cases h
      exact ⟨rfl, rfl⟩

/-- Every element of the capped unclassified prefix is loaded, unclassified
and not in flight. -/
theorem batch_mem_spec (emails : List Email) (classifications : ClassMap)
    (inflight : Finset String) :
    ∀ e ∈ (computeUnclassified emails classifications inflight).take 50,
      e ∈ emails ∧ classifications e.id = none ∧ e.id ∉ inflight := by
  intro e he
  have h1 : e ∈ computeUnclassified emails classifications inflight :=
    List.mem_of_mem_take he
  rcases List.mem_filter.mp h1 with ⟨hm, hp⟩
  rw [Bool.and_eq_true] at hp
  refine ⟨hm, Option.isNone_iff_eq_none.mp hp.1, ?_⟩
  have h2 := hp.2
  simp only [Bool.not_eq_true'] at h2
  exact of_decide_eq_false h2

/-- Membership in the in-flight set after marking a batch. -/
theorem mem_markInflight (batch : List Email) :
    ∀ (inflight : Finset String) (x : String),
      x ∈ markInflight inflight batch
        ↔ x ∈ inflight ∨ ∃ e ∈ batch, e.id = x := by
  induction batch with
  | nil =>
    intro inflight x
    simp [markInflight]
  | cons e rest ih =>
    intro inflight x
    have hstep : markInflight inflight (e :: rest)
        = markInflight (insert e.id inflight) rest := rfl
    rw [hstep, ih]
    simp only [Finset.mem_insert, List.mem_cons]
    constructor
    · rintro ((rfl | hx) | ⟨a, ha, rfl⟩)
      · exact Or.inr ⟨e, Or.inl rfl, rfl⟩
      · exact Or.inl hx
      · exact Or.inr ⟨a, Or.inr ha, rfl⟩
    · rintro (hx | ⟨a, (rfl | ha), rfl⟩)
      · exact Or.inl (Or.inr hx)
      · exact Or.inl (Or.inl rfl)
      · exact Or.inr ⟨a, ha, rfl⟩

/-- Membership in the in-flight set after the error rollback of a batch. -/
theorem mem_rollbackInflight (batch : List Email) :
    ∀ (s : Finset String) (x : String),
      x ∈ rollbackInflight s batch
        ↔ x ∈ s ∧ ∀ e ∈ batch, e.id ≠ x := by
  induction batch with
  | nil =>
    intro s x
    simp [rollbackInflight]
  | cons e rest ih =>
    intro s x
    have hstep : rollbackInflight s (e :: rest)
        = rollbackInflight (s.erase e.id) rest := rfl
    rw [hstep, ih]
    simp only [Finset.mem_erase, List.mem_cons]
    constructor
    · rintro ⟨⟨hne, hx⟩, hrest⟩
      refine ⟨hx, ?_⟩
      rintro a (rfl | ha)
      · exact fun hc => hne hc.symm
      · exact hrest a ha
    · rintro ⟨hx, hall⟩
      refine ⟨⟨fun hc => hall e (Or.inl rfl) hc.symm, hx⟩, ?_⟩
      intro a ha
      exact hall a (Or.inr ha)

/-- C8: whenever the debounce firing submits, the batch consists only of
message ids that are loaded, not in the classification map and not in the
in-flight set; it holds at most 50 messages; and every batched id is in the
in-flight set before the network call returns. -/
theorem C8_batch_is_capped_fresh_and_marked (emails : List Email)
    (classifications : ClassMap) (inflight : Finset String)
    (isClassifying isLoading : Bool) (batch : List Email)
    (inflight' : Finset String)
    (h : classifyStep emails classifications inflight isClassifying isLoading
          = ClassifyAction.submit batch inflight') :
    (∀ e ∈ batch, e ∈ emails ∧ classifications e.id = none ∧ e.id ∉ inflight)
    ∧ batch.length ≤ 50
    ∧ ∀ e ∈ batch, e.id ∈ inflight' := by
  obtain ⟨hb, hi⟩ := classifyStep_submit_spec emails classifications inflight
    isClassifying isLoading batch inflight' h
  subst hb
  subst hi
  refine ⟨batch_mem_spec emails classifications inflight, ?_, ?_⟩
  · exact List.length_take_le 50 _
  · intro e he
    exact (mem_markInflight _ _ _).mpr (Or.inr ⟨e, he, rfl⟩)

/-- C8 witness: with ids 1 and 2 in flight and id 3 newly loaded, the
submitted batch is exactly the email with id 3, capped and marked. -/
theorem C8_batch_witness :
    classifyStep emailsC8 emptyClassMap inflightC8 false false
      = ClassifyAction.submit [mkEmail "3"] (markInflight inflightC8 [mkEmail "3"])
    ∧ (∀ e ∈ [mkEmail "3"],
        e ∈ emailsC8 ∧ emptyClassMap e.id = none ∧ e.id ∉ inflightC8)
    ∧ ([mkEmail "3"] : List Email).length ≤ 50
    ∧ ∀ e ∈ [mkEmail "3"], e.id ∈ markInflight inflightC8 [mkEmail "3"] := by
  have h : classifyStep emailsC8 emptyClassMap inflightC8 false false
      = ClassifyAction.submit [mkEmail "3"] (markInflight inflightC8 [mkEmail "3"]) := by
    decide
  have H := C8_batch_is_capped_fresh_and_marked emailsC8 emptyClassMap inflightC8
    false false [mkEmail "3"] (markInflight inflightC8 [mkEmail "3"]) h
  exact ⟨h, H.1, H.2.1, H.2.2⟩

/-- C9: on a failed batch request, the rollback removes exactly the failed
batch's ids — the in-flight set returns to its pre-submission value, so the
batch is eligible for the next debounce cycle — while the classification
map, the error string and the loaded list are untouched and the failed ids
are no longer marked in flight. -/
theorem C9_failure_rolls_back_exactly_the_batch (s : EmailState)
    (emails : List Email) (classifications : ClassMap) (inflight : Finset String)
    (isClassifying isLoading : Bool) (batch : List Email)
    (inflight' : Finset String)
    (h : classifyStep emails classifications inflight isClassifying isLoading
          = ClassifyAction.submit batch inflight') :
    (classifyFailureStep s inflight' batch).2 = inflight
    ∧ (classifyFailureStep s inflight' batch).1.classifications = s.classifications
    ∧ (classifyFailureStep s inflight' batch).1.error = s.error
    ∧ (classifyFailureStep s inflight' batch).1.emails = s.emails
    ∧ ∀ e ∈ batch, e.id ∉ (classifyFailureStep s inflight' batch).2 := by
  obtain ⟨hb, hi⟩ := classifyStep_submit_spec emails classifications inflight
    isClassifying isLoading batch inflight' h
  subst hb
  subst hi
  have hset : rollbackInflight
      (markInflight inflight ((computeUnclassified emails classifications inflight).take 50))
      ((computeUnclassified emails classifications inflight).take 50) = inflight := by
    apply Finset.ext
    intro x
    rw [mem_rollbackInflight, mem_markInflight]
    constructor
    · rintro ⟨hx | ⟨e, he, rfl⟩, hnot⟩
      · exact hx
      · exact absurd rfl (hnot e he)
    · intro hx
      refine ⟨Or.inl hx, ?_⟩
      intro e he heq
      have hni := (batch_mem_spec emails classifications inflight e he).2.2
      rw [heq] at hni
      exact hni hx
  refine ⟨hset, rfl, rfl, rfl, ?_⟩
  intro e he
  show e.id ∉ rollbackInflight _ _
  rw [hset]
  exact (batch_mem_spec emails classifications inflight e he).2.2

/-- C9 witness: failing the concrete singleton batch for id 3 restores the
in-flight set to exactly ids 1 and 2, with store data untouched. -/
theorem C9_failure_rollback_witness :
    classifyStep emailsC8 emptyClassMap inflightC8 false false
      = ClassifyAction.submit [mkEmail "3"] (markInflight inflightC8 [mkEmail "3"])
    ∧ (classifyFailureStep initialState (markInflight inflightC8 [mkEmail "3"])
        [mkEmail "3"]).2 = inflightC8
    ∧ (classifyFailureStep initialState (markInflight inflightC8 [mkEmail "3"])
        [mkEmail "3"]).1.error = initialState.error := by
  have h : classifyStep emailsC8 emptyClassMap inflightC8 false false
      = ClassifyAction.submit [mkEmail "3"] (markInflight inflightC8 [mkEmail "3"]) := by
    decide
  have H := C9_failure_rolls_back_exactly_the_batch initialState emailsC8
    emptyClassMap inflightC8 false false [mkEmail "3"]
    (markInflight inflightC8 [mkEmail "3"]) h
  exact ⟨h, H.1, H.2.2.1⟩

/-- When `jsFindIndex` misses: the result is `-1` when no element of the list
bears the sought id. -/
theorem jsFindIndex_of_not_mem (id0 : String) :
    ∀ (l : List Email), id0 ∉ l.map Email.id →
      jsFindIndex (fun e => e.id == id0) l = -1 := by
  intro l
  induction l with
  | nil => intro _; rfl
  | cons a t ih =>
    intro h
    rw [List.map_cons] at h
    simp only [List.mem_cons, not_or] at h
    obtain ⟨h1, h2⟩ := h
    have hpa : (a.id == id0) = false := by
      simp only [beq_eq_false_iff_ne, ne_eq]
      exact fun hc => h1 hc.symm
    simp [jsFindIndex, hpa, ih h2]

/-- When `jsFindIndex` hits: with pairwise-distinct ids, searching for the id of
the element at position `n` returns `n`. -/
theorem jsFindIndex_at_index :
    ∀ (l : List Email) (n : Nat) (e : Email),
      (l.map Email.id).Nodup → l.get? n = some e →
      jsFindIndex (fun x => x.id == e.id) l = (n : Int) := by
  intro l
  induction l with
  | nil => intro n e _ h; simp at h
  | cons a t ih =>
    intro n e hnd hget
    rw [List.map_cons, List.nodup_cons] at hnd
    cases n with
    | zero =>
      rw [List.get?_cons_zero] at hget
      injection hget with hae
      subst hae
      simp [jsFindIndex]
    | succ m =>
      rw [List.get?_cons_succ] at hget
      have hmem : e ∈ t := List.get?_mem hget
      have hne : (a.id == e.id) = false := by
        simp only [beq_eq_false_iff_ne, ne_eq]
        intro hc
        exact hnd.1 (by rw [hc]; exact List.mem_map_of_mem Email.id hmem)
      have ihm := ih m e hnd.2 hget
      simp only [jsFindIndex, hne, Bool.false_eq_true, if_false, ihm]
      rw [if_neg (by omega : ¬ ((m : Int) < 0))]
      omega

/-- The `currentIndex` value under distinct ids: the active id of the element at
position `n` is found at index `n`. -/
theorem currentIndex_at_index (l : List Email) (n : Nat) (e : Email)
    (hnd : (l.map Email.id).Nodup) (hget : l.get? n = some e) :
    currentIndex l (some e.id) = (n : Int) :=
  jsFindIndex_at_index l n e hnd hget

/-- With the active id unset or stale (index `-1`), `next` activates the
first visible message. -/
theorem navNext_first_of_unset (l : List Email) (active : Option String)
    (e₀ : Email) (hidx : currentIndex l active = -1) (h0 : l.get? 0 = some e₀) :
    navNext l active = some e₀.id := by
  have hlen : 0 < l.length := by
    rcases List.get?_eq_some.mp h0 with ⟨hh, _⟩
    omega
  simp only [navNext, hidx]
  rw [if_pos (by omega : (-1 : Int) < (l.length : Int) - 1)]
  have ht : ((-1 : Int) + 1).toNat = 0 := rfl
  rw [ht, h0]

/-- With the active id unset or stale, `prev` is a no-op. -/
theorem navPrev_noop_of_unset (l : List Email) (active : Option String)
    (hidx : currentIndex l active = -1) :
    navPrev l active = active := by
  simp only [navPrev, hidx]
  rw [if_neg (by omega : ¬ (0 : Int) < -1)]

/-- From position `n`, `next` activates the element at `n + 1`. -/
theorem navNext_at_index (l : List Email) (n : Nat) (e e₁ : Email)
    (hnd : (l.map Email.id).Nodup) (hn : l.get? n = some e)
    (hn1 : l.get? (n + 1) = some e₁) :
    navNext l (some e.id) = some e₁.id := by
  have hidx := currentIndex_at_index l n e hnd hn
  have hlen : n + 1 < l.length := by
    rcases List.get?_eq_some.mp hn1 with ⟨hh, _⟩
    omega
  simp only [navNext, hidx]
  rw [if_pos (by omega : (n : Int) < (l.length : Int) - 1)]
  have ht : ((n : Int) + 1).toNat = n + 1 := by omega
  rw [ht, hn1]

/-- From position `n + 1`, `prev` activates the element at `n`. -/
theorem navPrev_at_index (l : List Email) (n : Nat) (e e₁ : Email)
    (hnd : (l.map Email.id).Nodup) (hn : l.get? n = some e)
    (hn1 : l.get? (n + 1) = some e₁) :
    navPrev l (some e₁.id) = some e.id := by
  have hidx := currentIndex_at_index l (n + 1) e₁ hnd hn1
  simp only [navPrev, hidx]
  rw [if_pos (by omega : (0 : Int) < ((n + 1 : Nat) : Int))]
  have ht : (((n + 1 : Nat) : Int) - 1).toNat = n := by omega
  rw [ht, hn]

/-- Input `next` at the last visible element is a no-op. -/
theorem navNext_noop_at_last (l : List Email) (e : Email)
    (hnd : (l.map Email.id).Nodup) (hl : l.get? (l.length - 1) = some e) :
    navNext l (some e.id) = some e.id := by
  have hlen : 0 < l.length := by
    rcases List.get?_eq_some.mp hl with ⟨hh, _⟩
    omega
  have hidx := currentIndex_at_index l (l.length - 1) e hnd hl
  simp only [navNext, hidx]
  rw [if_neg (by omega : ¬ (((l.length - 1 : Nat) : Int) < (l.length : Int) - 1))]
  rw [if_neg (by rintro ⟨hc, _⟩; omega)]

/-- Input `prev` at the first visible element is a no-op. -/
theorem navPrev_noop_at_first (l : List Email) (e : Email)
    (hnd : (l.map Email.id).Nodup) (h0 : l.get? 0 = some e) :
    navPrev l (some e.id) = some e.id := by
  have hidx := currentIndex_at_index l 0 e hnd h0
  simp only [navPrev, hidx]
  rw [if_neg (by omega : ¬ (0 : Int) < ((0 : Nat) : Int))]

/-- The rendered visible list is a sublist of the loaded base list. -/
theorem displayEmails_sublist (s : EmailState) :
    List.Sublist (displayEmails s) s.emails := by
  rw [displayEmails]
  split
  · exact List.filter_sublist s.emails
  · exact List.Sublist.refl s.emails

/-- C6: keyboard navigation over the visible list: a stale active id is
found at index `-1` and falls back to unset semantics (`next` activates the
first visible message, `prev` is a no-op, never throwing); from an interior
position `next` activates the immediately following visible message and
`prev` the immediately preceding one, so `next` then `prev` restores the
original active id; `next` at the last visible item and `prev` at the first
are no-ops. -/
theorem C6_keyboard_navigation (s : EmailState)
    (hnd : (s.emails.map Email.id).Nodup) :
    (∀ id0, id0 ∉ (displayEmails s).map Email.id →
        currentIndex (displayEmails s) (some id0) = -1)
    ∧ (∀ active e₀, currentIndex (displayEmails s) active = -1 →
        (displayEmails s).get? 0 = some e₀ →
        navNext (displayEmails s) active = some e₀.id)
    ∧ (∀ active, currentIndex (displayEmails s) active = -1 →
        navPrev (displayEmails s) active = active)
    ∧ (∀ n e e₁, (displayEmails s).get? n = some e →
        (displayEmails s).get? (n + 1) = some e₁ →
        navNext (displayEmails s) (some e.id) = some e₁.id
        ∧ navPrev (displayEmails s) (some e₁.id) = some e.id)
    ∧ (∀ e, (displayEmails s).get? ((displayEmails s).length - 1) = some e →
        navNext (displayEmails s) (some e.id) = some e.id)
    ∧ (∀ e, (displayEmails s).get? 0 = some e →
        navPrev (displayEmails s) (some e.id) = some e.id) := by
  have hv : ((displayEmails s).map Email.id).Nodup :=
    hnd.sublist ((displayEmails_sublist s).map Email.id)
  refine ⟨?_, ?_, ?_, ?_, ?_, ?_⟩
  · intro id0 h
    exact jsFindIndex_of_not_mem id0 (displayEmails s) h
  · intro active e₀ hidx h0
    exact navNext_first_of_unset (displayEmails s) active e₀ hidx h0
  · intro active hidx
    exact navPrev_noop_of_unset (displayEmails s) active hidx
  · intro n e e₁ hn hn1
    exact ⟨navNext_at_index (displayEmails s) n e e₁ hv hn hn1,
           navPrev_at_index (displayEmails s) n e e₁ hv hn hn1⟩
  · intro e hl
    exact navNext_noop_at_last (displayEmails s) e hv hl
  · intro e h0
    exact navPrev_noop_at_first (displayEmails s) e hv h0

/-- C6 witness: over three visible messages A, B, C: unset `next` activates
A; from B, `next` goes to C and `prev` returns to B; `next` at C and `prev`
at A are no-ops. -/
theorem C6_keyboard_navigation_witness :
    (sNav.emails.map Email.id).Nodup
    ∧ navNext (displayEmails sNav) none = some "A"
    ∧ navNext (displayEmails sNav) (some "B") = some "C"
    ∧ navPrev (displayEmails sNav) (some "C") = some "B"
    ∧ navNext (displayEmails sNav) (some "C") = some "C"
    ∧ navPrev (displayEmails sNav) (some "A") = some "A" := by
  have H := C6_keyboard_navigation sNav (by decide)
  refine ⟨by decide, ?_, ?_, ?_, ?_, ?_⟩
  · exact H.2.1 none (mkEmail "A") rfl (by decide)
  · exact (H.2.2.2.1 1 (mkEmail "B") (mkEmail "C") (by decide) (by decide)).1
  · exact (H.2.2.2.1 1 (mkEmail "B") (mkEmail "C") (by decide) (by decide)).2
  · exact H.2.2.2.2.1 (mkEmail "C") (by decide)
  · exact H.2.2.2.2.2 (mkEmail "A") (by decide)

end GmailDashboard
